import Mathlib

/-!
Shallow embedding of the exapunks_lite EXA virtual-machine core
(src/value.rs, src/register/basic.rs, src/register/hardware.rs,
src/file/mod.rs, src/file/id_generator.rs, src/host/mod.rs,
src/host/link.rs, src/program/mod.rs, src/program/instruction.rs,
src/exa/mod.rs), together with theorems settling the claims about it.

Modelling conventions:
* Rust `usize`/`isize` become `Nat`/`Int`; the saturating operations are
  embedded explicitly.  None of the verified operations can approach the
  64-bit wrap-around (indices are bounded by list lengths, ids by 9 999),
  so no `% 2^64` reduction is needed.
* `HashMap`/`HashSet` become association lists / lists with the exact
  insert-replace and remove semantics of the Rust types; only membership,
  lookup and cardinality are observable to the verified code.
* `Rc<RefCell<_>>` graphs (hosts, links) become an explicit `World` arena
  keyed by ids; a `Weak` reference is the id, and `Weak::upgrade` is an
  arena lookup (a dangling weak is an id absent from the arena).
* A Rust function that can panic returns `RustOutcome`, with `panicked`
  carrying the panic message.
-/

/-- Outcome of running a Rust function that may panic (`assert!`,
`unimplemented!`, `unwrap`): either a normal return or a panic with its
message. -/
inductive RustOutcome (α : Type) where
  | ok (value : α)
  | panicked (msg : String)
deriving Repr, DecidableEq

/-- `HashMap::get` / map lookup on the association-list model. -/
def alistLookup {α : Type} (l : List (String × α)) (k : String) : Option α :=
  match l with
  | [] => none
  | (k0, v0) :: rest => if k0 = k then some v0 else alistLookup rest k

/-- `HashMap::contains_key` on the association-list model. -/
def alistContains {α : Type} (l : List (String × α)) (k : String) : Bool :=
  (alistLookup l k).isSome

/-- `HashMap::insert` semantics: replace the value under an existing key,
otherwise add a new entry. -/
def alistInsert {α : Type} (l : List (String × α)) (k : String) (v : α) :
    List (String × α) :=
  match l with
  | [] => [(k, v)]
  | (k0, v0) :: rest =>
    if k0 = k then (k, v) :: rest else (k0, v0) :: alistInsert rest k v

/-- `HashMap::remove` semantics: returns the removed value (if any) and the
map without that key. -/
def alistRemove {α : Type} (l : List (String × α)) (k : String) :
    Option α × List (String × α) :=
  match l with
  | [] => (none, [])
  | (k0, v0) :: rest =>
    if k0 = k then (some v0, rest)
    else
      let r := alistRemove rest k
      (r.1, (k0, v0) :: r.2)

/-- `HashSet::insert` semantics on the list model: no duplicates. -/
def setInsert (l : List String) (k : String) : List String :=
  if k ∈ l then l else l ++ [k]

/- ===== src/value.rs ===== -/

/-- `Value` — tagged scalar: number, keyword, register id, label id
(src/value.rs).  `isize` is modelled by `Int`. -/
inductive Value where
  | Number (n : Int)
  | Keyword (s : String)
  | RegisterId (s : String)
  | LabelId (s : String)
deriving Repr, DecidableEq

/-- Discriminant order used by Rust `derive(PartialOrd, Ord)` on `Value`:
variants compare by declaration order first. -/
def Value.variantRank : Value → Nat
  | .Number _ => 0
  | .Keyword _ => 1
  | .RegisterId _ => 2
  | .LabelId _ => 3

/-- The derived `Ord::cmp` on `Value` (src/value.rs line 15,
`#[derive(..., PartialOrd, Ord)]`): compare the variant rank first, and
inside a single variant compare the payloads. -/
def Value.cmp (a b : Value) : Ordering :=
  match a, b with
  | .Number x, .Number y => compare x y
  | .Keyword x, .Keyword y => compare x y
  | .RegisterId x, .RegisterId y => compare x y
  | .LabelId x, .LabelId y => compare x y
  | _, _ => compare a.variantRank b.variantRank

/-- The derived `PartialOrd::partial_cmp` on `Value`.  For a type with a
derived total `Ord`, the derive produces `Some(self.cmp(other))` for every
pair of values. -/
def Value.cmpOpt (a b : Value) : Option Ordering :=
  some (Value.cmp a b)

/-- The derived `PartialEq::eq` on `Value`: structural equality, false
across different variants. -/
def Value.beq : Value → Value → Bool
  | .Number x, .Number y => x == y
  | .Keyword x, .Keyword y => x == y
  | .RegisterId x, .RegisterId y => x == y
  | .LabelId x, .LabelId y => x == y
  | _, _ => false

/- ===== src/register/basic.rs, src/register/hardware.rs ===== -/

/-- Errors raised by register reads/writes (`AccessError`, re-exported by
src/register; the variants are the ones produced by
`BasicRegister::write`, `HardwareRegister::write` and the hardware
reads). -/
inductive AccessError where
  | NumberValueTooSmall (v : Value)
  | NumberValueTooLarge (v : Value)
  | WriteWithLabelId (v : Value)
  | WriteWithRegisterId (v : Value)
  | InvalidReadAccess
deriving Repr, DecidableEq

/-- `BasicRegister` (src/register/basic.rs): scalar cell. -/
structure BasicRegister where
  id : String
  value : Option Value
deriving Repr, DecidableEq

/-- `BasicRegister::new`. -/
def BasicRegister.new (id : String) : BasicRegister :=
  { id := id, value := none }

/-- `BasicRegister::write` (src/register/basic.rs lines 69-85).  The Rust
method mutates `&mut self` and returns `Result<(), AccessError>`; here it
returns the result together with the register after the call, which is
unchanged on every error path. -/
def BasicRegister.write (r : BasicRegister) (value : Value) :
    Except AccessError Unit × BasicRegister :=
  match value with
  | .Number number =>
    if number < -9999 then
      (.error (.NumberValueTooSmall value), r)
    else if 9999 < number then
      (.error (.NumberValueTooLarge value), r)
    else
      (.ok (), { r with value := some value })
  | .LabelId _ => (.error (.WriteWithLabelId value), r)
  | .RegisterId _ => (.error (.WriteWithRegisterId value), r)
  | .Keyword _ => (.ok (), { r with value := some value })

/-- `BasicRegister::read`: clone without mutation. -/
def BasicRegister.read (r : BasicRegister) :
    Except AccessError (Option Value) :=
  .ok r.value

/-- `AccessMode` (src/register/hardware.rs). -/
inductive AccessMode where
  | ReadOnly
  | WriteOnly
deriving Repr, DecidableEq

/-- `HardwareRegister` (src/register/hardware.rs): FIFO queue with an
access mode; `VecDeque<Value>` becomes a list with its front at the
head. -/
structure HardwareRegister where
  id : String
  values : List Value
  mode : AccessMode
deriving Repr, DecidableEq

/-- `HardwareRegister::read`: peek the front, error on WriteOnly. -/
def HardwareRegister.read (r : HardwareRegister) :
    Except AccessError (Option Value) :=
  if r.mode = .WriteOnly then .error .InvalidReadAccess
  else .ok r.values.head?

/-- `HardwareRegister::read_mut`: pop the front, error on WriteOnly. -/
def HardwareRegister.read_mut (r : HardwareRegister) :
    Except AccessError (Option Value) × HardwareRegister :=
  if r.mode = .WriteOnly then (.error .InvalidReadAccess, r)
  else (.ok r.values.head?, { r with values := r.values.tail })

/-- `HardwareRegister::write` (src/register/hardware.rs lines 101-119):
validate exactly like `BasicRegister::write`; on success push to the back
of the queue only when the mode is WriteOnly (a ReadOnly register accepts
the write as a no-op). -/
def HardwareRegister.write (r : HardwareRegister) (value : Value) :
    Except AccessError Unit × HardwareRegister :=
  match value with
  | .Number number =>
    if number < -9999 then
      (.error (.NumberValueTooSmall value), r)
    else if 9999 < number then
      (.error (.NumberValueTooLarge value), r)
    else
      if r.mode = .WriteOnly then
        (.ok (), { r with values := r.values ++ [value] })
      else
        (.ok (), r)
  | .LabelId _ => (.error (.WriteWithLabelId value), r)
  | .RegisterId _ => (.error (.WriteWithRegisterId value), r)
  | .Keyword _ =>
    if r.mode = .WriteOnly then
      (.ok (), { r with values := r.values ++ [value] })
    else
      (.ok (), r)

/- ===== src/file/mod.rs ===== -/

/-- `usize::saturating_add_signed`.  `Int.toNat` clamps negative results to
`0`; the upper saturation point (`usize::MAX`) is unreachable here because
every use is immediately clamped far below it by `min len`. -/
def satAddSigned (n : Nat) (i : Int) : Nat :=
  ((n : Int) + i).toNat

/-- `File` (src/file/mod.rs): identified list of values with a cursor. -/
structure File where
  id : String
  contents : List Value
  index : Nat
deriving Repr, DecidableEq

/-- `File::new`: empty contents, cursor 0. -/
def File.new (id : String) : File :=
  { id := id, contents := [], index := 0 }

/-- `File::len`. -/
def File.len (f : File) : Nat := f.contents.length

/-- `File::is_eof`: the cursor equals the length. -/
def File.is_eof (f : File) : Bool := f.index == f.len

/-- `File::adjust_index` (src/file/mod.rs lines 76-78):
`self.index = self.len().min(self.index.saturating_add_signed(offset))`. -/
def File.adjust_index (f : File) (offset : Int) : File :=
  { f with index := min f.len (satAddSigned f.index offset) }

/- ===== Rust string primitives ===== -/

/-- Rust `str::split(sep)` for a single-character separator, on the
character list: consecutive separators and edge separators produce empty
pieces, and the empty input yields one empty piece. -/
def splitChar (sep : Char) : List Char → List (List Char)
  | [] => [[]]
  | c :: rest =>
    if c = sep then [] :: splitChar sep rest
    else
      match splitChar sep rest with
      | piece :: pieces => (c :: piece) :: pieces
      | [] => [[c]]

/-- Rust `line.split(' ')` collected to strings. -/
def rustSplitSpace (s : String) : List String :=
  (splitChar ' ' s.data).map (fun cs => String.mk cs)

/-- Rust `str::starts_with(c)` for a single character. -/
def startsWithChar (s : String) (c : Char) : Bool :=
  match s.data with
  | [] => false
  | c0 :: _ => c0 == c

/- ===== Rust integer parsing (used by Value::from_str) ===== -/

/-- Digit accumulation for `<isize as FromStr>::from_str`. -/
def digitsVal (cs : List Char) : Nat :=
  cs.foldl (fun acc c => acc * 10 + (c.toNat - '0'.toNat)) 0

/-- Parse the digit part of a Rust `isize` literal with a given sign.
Rust errors on an empty digit string, on any non-ASCII-digit character,
and on overflow past the 64-bit `isize` range. -/
def parseIsizeDigits (cs : List Char) (sign : Int) : Option Int :=
  if cs.isEmpty then none
  else if cs.all Char.isDigit then
    let r : Int := sign * (digitsVal cs : Int)
    if -9223372036854775808 ≤ r ∧ r ≤ 9223372036854775807 then some r
    else none
  else none

/-- `s.parse::<isize>()`: optional `+`/`-` sign followed by one or more
ASCII digits, within the 64-bit `isize` range. -/
def parseIsize (s : String) : Option Int :=
  match s.data with
  | [] => none
  | '+' :: rest => parseIsizeDigits rest 1
  | '-' :: rest => parseIsizeDigits rest (-1)
  | cs => parseIsizeDigits cs 1

/- ===== Value parsing (src/value.rs) ===== -/

/-- `Value::from_str` (src/value.rs lines 184-190): error on the empty
string, a number when it parses as `isize`, otherwise a keyword.
`Value`'s unit-struct `ParseError` is modelled by `none`. -/
def Value.from_str (s : String) : Option Value :=
  if s.isEmpty then none
  else
    match parseIsize s with
    | some number => some (.Number number)
    | none => some (.Keyword s)

/-- `Value::new_register_id` (src/value.rs lines 112-122).  `input.len()`
is Rust byte length, hence `utf8ByteSize`. -/
def Value.new_register_id (input : String) : Option Value :=
  let is_valid_hardware_register_id :=
    startsWithChar input '#' && input.utf8ByteSize == 5
  let is_valid_exa_register_id :=
    input == "X" || input == "T" || input == "F" || input == "M"
  if is_valid_hardware_register_id || is_valid_exa_register_id then
    some (.RegisterId input)
  else
    none

/-- `Value::new_number_or_register_id` (src/value.rs lines 69-75). -/
def Value.new_number_or_register_id (input : String) : Option Value :=
  match Value.from_str input with
  | some (.Number number) => some (.Number number)
  | some (.Keyword keyword) => Value.new_register_id keyword
  | _ => none

/-- `Value::new_label_id` (src/value.rs lines 144-150). -/
def Value.new_label_id (input : String) : Option Value :=
  if input.isEmpty then none else some (.LabelId input)

/- ===== src/program/instruction.rs ===== -/

/-- `Instruction` — the full opcode union (src/program/instruction.rs). -/
inductive Instruction where
  | Copy (src dst : Value)
  | Add (a b dst : Value)
  | Subtract (a b dst : Value)
  | Multiply (a b dst : Value)
  | Divide (a b dst : Value)
  | Modulo (a b dst : Value)
  | Swiz (a b dst : Value)
  | Mark (label : Value)
  | Jump (label : Value)
  | JumpIfTrue (label : Value)
  | JumpIfFalse (label : Value)
  | TestEqual (a b : Value)
  | TestGreaterThan (a b : Value)
  | TestLessThan (a b : Value)
  | Replicate (label : Value)
  | Halt
  | Kill
  | Link (gate : Value)
  | Host (dst : Value)
  | Mode
  | VoidM
  | TestMRD
  | Make
  | Grab (fileId : Value)
  | File (dst : Value)
  | Seek (amount : Value)
  | VoidF
  | Drop
  | Wipe
  | TestEndOfFile
  | Note
  | NoOp
  | Random (a b dst : Value)
deriving Repr, DecidableEq

/-- `ParseError` for a single instruction line
(src/program/instruction.rs lines 47-54). -/
inductive Instruction.ParseError where
  | InvalidInstruction
  | InvalidLineLength
  | InvalidValues
  | InvalidTestOperation
  | MissingTestOperation
deriving Repr, DecidableEq

/-- `Instruction::parse_rn`: "[opcode] [register-id-or-number]". -/
def Instruction.parse_rn (line : String)
    (constructor : Value → Instruction) :
    Except Instruction.ParseError Instruction :=
  match rustSplitSpace line with
  | [_, first] =>
    match Value.new_number_or_register_id first with
    | some v => .ok (constructor v)
    | none => .error .InvalidValues
  | _ => .error .InvalidLineLength

/-- `Instruction::parse_rn_r`: "[opcode] [rn] [register-id]". -/
def Instruction.parse_rn_r (line : String)
    (constructor : Value → Value → Instruction) :
    Except Instruction.ParseError Instruction :=
  match rustSplitSpace line with
  | [_, source, destination] =>
    match Value.new_number_or_register_id source,
        Value.new_register_id destination with
    | some s, some d => .ok (constructor s d)
    | _, _ => .error .InvalidValues
  | _ => .error .InvalidLineLength

/-- `Instruction::parse_rn_rn_r`: "[opcode] [rn] [rn] [register-id]". -/
def Instruction.parse_rn_rn_r (line : String)
    (constructor : Value → Value → Value → Instruction) :
    Except Instruction.ParseError Instruction :=
  match rustSplitSpace line with
  | [_, first, second, destination] =>
    match Value.new_number_or_register_id first,
        Value.new_number_or_register_id second,
        Value.new_register_id destination with
    | some a, some b, some d => .ok (constructor a b d)
    | _, _, _ => .error .InvalidValues
  | _ => .error .InvalidLineLength

/-- `Instruction::parse_r`: "[opcode] [register-id]". -/
def Instruction.parse_r (line : String)
    (constructor : Value → Instruction) :
    Except Instruction.ParseError Instruction :=
  match rustSplitSpace line with
  | [_, first] =>
    match Value.new_register_id first with
    | some v => .ok (constructor v)
    | none => .error .InvalidValues
  | _ => .error .InvalidLineLength

/-- `Instruction::parse_l`: "[opcode] [label-id]". -/
def Instruction.parse_l (line : String)
    (constructor : Value → Instruction) :
    Except Instruction.ParseError Instruction :=
  match rustSplitSpace line with
  | [_, first] =>
    match Value.new_label_id first with
    | some v => .ok (constructor v)
    | none => .error .InvalidValues
  | _ => .error .InvalidLineLength

/-- `Instruction::parse_test`: "[opcode] [rn] [=><] [rn]"
(src/program/instruction.rs lines 230-254). -/
def Instruction.parse_test (line : String) :
    Except Instruction.ParseError Instruction :=
  match rustSplitSpace line with
  | [_, first, op, second] =>
    if op ≠ "=" ∧ op ≠ ">" ∧ op ≠ "<" then .error .InvalidTestOperation
    else
      match Value.new_number_or_register_id first,
          Value.new_number_or_register_id second with
      | some a, some b =>
        if op = "=" then .ok (.TestEqual a b)
        else if op = ">" then .ok (.TestGreaterThan a b)
        else .ok (.TestLessThan a b)
      | _, _ => .error .InvalidValues
  | _ => .error .InvalidLineLength

/-- `Instruction::parse_single_instruction`: a nullary opcode line must be
exactly the 4-byte opcode. -/
def Instruction.parse_single_instruction (line : String)
    (instruction : Instruction) :
    Except Instruction.ParseError Instruction :=
  if line.utf8ByteSize == 4 then .ok instruction
  else .error .InvalidLineLength

/-- `<Instruction as FromStr>::from_str`
(src/program/instruction.rs lines 280-318): dispatch on the first
space-separated word. -/
def Instruction.from_str (line : String) :
    Except Instruction.ParseError Instruction :=
  let instruction := (rustSplitSpace line).headD ""
  match instruction with
  | "COPY" => Instruction.parse_rn_r line .Copy
  | "ADDI" => Instruction.parse_rn_rn_r line .Add
  | "SUBI" => Instruction.parse_rn_rn_r line .Subtract
  | "MULI" => Instruction.parse_rn_rn_r line .Multiply
  | "DIVI" => Instruction.parse_rn_rn_r line .Divide
  | "MODI" => Instruction.parse_rn_rn_r line .Modulo
  | "SWIZ" => Instruction.parse_rn_rn_r line .Swiz
  | "MARK" => Instruction.parse_l line .Mark
  | "JUMP" => Instruction.parse_l line .Jump
  | "TJMP" => Instruction.parse_l line .JumpIfTrue
  | "FJMP" => Instruction.parse_l line .JumpIfFalse
  | "TEST" =>
    if line = "TEST MRD" then .ok .TestMRD
    else if line = "TEST EOF" then .ok .TestEndOfFile
    else Instruction.parse_test line
  | "REPL" => Instruction.parse_l line .Replicate
  | "HALT" => Instruction.parse_single_instruction line .Halt
  | "KILL" => Instruction.parse_single_instruction line .Kill
  | "LINK" => Instruction.parse_rn line .Link
  | "HOST" => Instruction.parse_r line .Host
  | "MODE" => Instruction.parse_single_instruction line .Mode
  | "VOID" =>
    if line = "VOID M" then .ok .VoidM
    else if line = "VOID F" then .ok .VoidF
    else .error .InvalidInstruction
  | "MAKE" => Instruction.parse_single_instruction line .Make
  | "GRAB" => Instruction.parse_rn line .Grab
  | "FILE" => Instruction.parse_r line .File
  | "SEEK" => Instruction.parse_rn line .Seek
  | "DROP" => Instruction.parse_single_instruction line .Drop
  | "WIPE" => Instruction.parse_single_instruction line .Wipe
  | "NOTE" => .ok .Note
  | "NOOP" => Instruction.parse_single_instruction line .NoOp
  | "RAND" => Instruction.parse_rn_rn_r line .Random
  | _ => .error .InvalidInstruction

/- ===== src/program/mod.rs ===== -/

/-- `LineParseError` (src/program/mod.rs lines 29-32). -/
inductive LineParseError where
  | InvalidInstruction (line_number : Nat) (e : Instruction.ParseError)
  | MissingMarkLabel (line_number : Nat) (label : String)
deriving Repr, DecidableEq

/-- `LineParseError::line_number`. -/
def LineParseError.line_number : LineParseError → Nat
  | .InvalidInstruction n _ => n
  | .MissingMarkLabel n _ => n

/-- `Program`'s `ParseError(Vec<LineParseError>)`. -/
structure Program.ParseError where
  errors : List LineParseError
deriving Repr, DecidableEq

/-- `Program` (src/program/mod.rs lines 19-25). -/
structure Program where
  file_path : String
  raw_lines : List String
  instructions : List (Nat × Instruction)
  marks : List (String × Nat)
  stack_index : Nat
deriving Repr, DecidableEq

instance {ε α : Type} [DecidableEq ε] [DecidableEq α] :
    DecidableEq (Except ε α) := fun a b =>
  match a, b with
  | .ok x, .ok y =>
    if h : x = y then .isTrue (by rw [h])
    else .isFalse (by intro hc; cases hc; exact h rfl)
  | .error x, .error y =>
    if h : x = y then .isTrue (by rw [h])
    else .isFalse (by intro hc; cases hc; exact h rfl)
  | .ok _, .error _ => .isFalse (by intro hc; cases hc)
  | .error _, .ok _ => .isFalse (by intro hc; cases hc)

/-- Accumulator of the construction loop in `Program::new`: the label
table, the executable instruction list, and the per-line parse results
(`instruction_parse_results`). -/
structure BuildState where
  marks : List (String × Nat)
  instructions : List (Nat × Instruction)
  results : List (Nat × Except Instruction.ParseError Instruction)
deriving Repr, DecidableEq

/-- The body of the `for (line_number, line)` loop of `Program::new`
(src/program/mod.rs lines 62-84): skip comments (leading `#`) and empty
lines, record each parse result, absorb `Mark` lines into the label table
at the current instruction count, and append every other well-parsed
instruction. -/
def buildLoop : List String → Nat → BuildState → BuildState
  | [], _, st => st
  | line :: rest, line_number, st =>
    if startsWithChar line '#' || line.isEmpty then
      buildLoop rest (line_number + 1) st
    else
      let parse_result := Instruction.from_str line
      let st1 : BuildState :=
        { st with results := st.results ++ [(line_number, parse_result)] }
      match parse_result with
      | .ok (.Mark (.LabelId label)) =>
        buildLoop rest (line_number + 1)
          { st1 with
            marks := alistInsert st1.marks label st1.instructions.length }
      | .ok instruction =>
        buildLoop rest (line_number + 1)
          { st1 with
            instructions := st1.instructions ++ [(line_number, instruction)] }
      | .error _ => buildLoop rest (line_number + 1) st1

/-- The jump-family label of an instruction, when it has one
(the `Jump | JumpIfTrue | JumpIfFalse | Replicate` pattern of
`Program::parse_error`). -/
def jumpFamilyLabel : Instruction → Option String
  | .Jump (.LabelId label) => some label
  | .JumpIfTrue (.LabelId label) => some label
  | .JumpIfFalse (.LabelId label) => some label
  | .Replicate (.LabelId label) => some label
  | _ => none

/-- The label of a `MARK` instruction, when the argument is a label id
(the pattern of the first arm of the construction-loop `match`). -/
def markLabelOf : Instruction → Option String
  | .Mark (.LabelId label) => some label
  | _ => none

/-- The error-collection pass of `Program::parse_error`
(src/program/mod.rs lines 175-208): a `MissingMarkLabel` for every
jump-family instruction whose label is absent from the label table, and an
`InvalidInstruction` for every line that failed to parse. -/
def collectLineErrors :
    List (Nat × Except Instruction.ParseError Instruction) →
    List (String × Nat) → List LineParseError
  | [], _ => []
  | (line_number, result) :: rest, marks =>
    let tailErrors := collectLineErrors rest marks
    match result with
    | .error e => .InvalidInstruction line_number e :: tailErrors
    | .ok instruction =>
      match jumpFamilyLabel instruction with
      | some label =>
        if alistContains marks label then tailErrors
        else .MissingMarkLabel line_number label :: tailErrors
      | none => tailErrors

/-- Stable insertion of a line error into a list sorted by line number
(the element goes in front of the first entry with an equal or larger
line number, preserving the original order of equal keys). -/
def insertByLineNumber (e : LineParseError) :
    List LineParseError → List LineParseError
  | [] => [e]
  | x :: xs =>
    if e.line_number ≤ x.line_number then e :: x :: xs
    else x :: insertByLineNumber e xs

/-- The `errors.sort_by_key(line_number)` of `Program::parse_error`:
a stable sort by line number (insertion sort; stable sorts of the same
key order agree element-for-element with Rust's stable
`sort_by_key`). -/
def sortByLineNumber (l : List LineParseError) : List LineParseError :=
  l.foldr insertByLineNumber []

/-- `Program::new` (src/program/mod.rs lines 57-103): run the construction
loop, collect construction errors (sorted by line number), and return the
program only when there are none. -/
def Program.new (instruction_strings : List String) :
    Except Program.ParseError Program :=
  let st := buildLoop instruction_strings 0 ⟨[], [], []⟩
  let errors := sortByLineNumber (collectLineErrors st.results st.marks)
  let program : Program :=
    { file_path := ""
      raw_lines := instruction_strings
      instructions := st.instructions
      marks := st.marks
      stack_index := 0 }
  if errors.isEmpty then .ok program else .error ⟨errors⟩

/-- `Program::peak_current_instruction`. -/
def Program.peak_current_instruction (p : Program) :
    Option (Nat × Instruction) :=
  p.instructions.get? p.stack_index

/-- `Program::jump_to` (src/program/mod.rs lines 162-171): set the cursor
to the label's entry in the label table; panic on an unknown label or a
non-label argument. -/
def Program.jump_to (p : Program) (mark_label : Value) :
    RustOutcome Program :=
  match mark_label with
  | .LabelId label =>
    match alistLookup p.marks label with
    | some index => .ok { p with stack_index := index }
    | none => .panicked (label ++ " is not a valid MARK!")
  | _ => .panicked "not a Value::LabelId!"

/- ===== src/exa/mod.rs (data model) ===== -/

/-- `CommunicationMode` (src/exa/mod.rs). -/
inductive CommunicationMode where
  | Global
  | Local
deriving Repr, DecidableEq

/-- `ExaState` (src/exa/mod.rs lines 25-33). -/
inductive ExaState where
  | Running
  | WaitingForFile
  | WaitingForMRead
  | WaitingForMWrite
  | WaitingForLinkToOpen
  | WaitingForHostAvailabilityToDropFile
  | WaitingForHostAvailabilityToReplicate
deriving Repr, DecidableEq

/-- `Exa` (src/exa/mod.rs lines 91-103).  The `Weak<RefCell<Host>>` and
`Weak<RefCell<Generator>>` fields are arena handles (ids) under the world
model. -/
structure Exa where
  id : String
  x_register : BasicRegister
  t_register : BasicRegister
  f_register : BasicRegister
  host : String
  program : Program
  file : Option File
  file_generator : String
  next_exa_id : Nat
  communication_mode : CommunicationMode
  state : ExaState
deriving Repr, DecidableEq

/-- `ExecutionResponse` (src/exa/mod.rs lines 37-44). -/
inductive ExecutionResponse where
  | Success
  | Link
  | Replicate (child : Exa)
deriving Repr, DecidableEq

/-- `ExecutionResponseError` (src/exa/mod.rs lines 60-86). -/
inductive ExecutionResponseError where
  | Halt (exaId : String)
  | OutOfInstructions (exaId : String)
  | Kill (exaId : String)
  | DivideByZero (numerator denominator : Value)
  | MathWithKeywords (a b : Value)
  | InvalidFRegisterAccess
  | InvalidHardwareRegisterAccess (registerId : String)
  | InvalidFileAccess (fileId : String)
  | InvalidLinkTraversal (linkId : String)
deriving Repr, DecidableEq

/-- `Exa::execute_current_instruction` (src/exa/mod.rs lines 177-181).
The body in the source is exactly `unimplemented!()`, which panics with
the message "not implemented" on every call; no instruction dispatch is
present.  The return type mirrors
`Result<ExecutionResponse, ExecutionResponseError>` together with the
mutated receiver. -/
def Exa.execute_current_instruction (_ : Exa) :
    RustOutcome (Exa × Except ExecutionResponseError ExecutionResponse) :=
  .panicked "not implemented"

/-- `Exa::next_replicated_exa_id` (src/exa/mod.rs lines 184-190). -/
def Exa.next_replicated_exa_id (e : Exa) : String × Exa :=
  (e.id ++ ":" ++ toString e.next_exa_id,
    { e with next_exa_id := e.next_exa_id + 1 })

/- ===== src/host/mod.rs, src/host/link.rs ===== -/

/-- `HostError` (src/host/mod.rs lines 17-20). -/
inductive HostError where
  | LinkDoesNotExist (gateId : String)
  | NoRoomForFile (file : File)
deriving Repr, DecidableEq

/-- `Link` (src/host/link.rs): two gate ids and two weak host references
(arena handles), plus the `occupied` flag. -/
structure Link where
  lhs_id : String
  lhs_host : String
  rhs_id : String
  rhs_host : String
  occupied : Bool
deriving Repr, DecidableEq

/-- `Link::destination` (src/host/link.rs lines 35-43): the weak host
reference registered under the given gate id. -/
def Link.destination (l : Link) (gate_id : String) : Option String :=
  if l.lhs_id = gate_id then some l.lhs_host
  else if l.rhs_id = gate_id then some l.rhs_host
  else none

/-- `Host` (src/host/mod.rs lines 26-36).  `links` maps a gate id to a
weak link reference (an arena handle into `World.links`). -/
structure Host where
  id : String
  occupancy_limit : Nat
  local_m_register : BasicRegister
  links : List (String × String)
  pending_files : List (String × File)
  files : List (String × File)
  hardware_registers : List (String × HardwareRegister)
  system_exas : List (String × Exa)
  occupying_exa_ids : List String
deriving Repr, DecidableEq

/-- `Host::new` (src/host/mod.rs lines 40-52). -/
def Host.new (id : String) (occupancy_limit : Nat) : Host :=
  { id := id
    occupancy_limit := occupancy_limit
    local_m_register := BasicRegister.new "M"
    links := []
    pending_files := []
    files := []
    hardware_registers := []
    system_exas := []
    occupying_exa_ids := [] }

/-- `Host::has_available_space` (src/host/mod.rs lines 234-244): the
occupancy limit minus (files + pending files + hardware registers +
system exas + occupying exa ids) under `usize::saturating_sub` — which is
exactly truncated `Nat` subtraction — must be positive. -/
def Host.has_available_space (h : Host) : Bool :=
  0 < h.occupancy_limit - h.files.length - h.pending_files.length
      - h.hardware_registers.length - h.system_exas.length
      - h.occupying_exa_ids.length

/-- `Host::insert_file` (src/host/mod.rs lines 64-71): `assert!` there is
room, then insert keyed by the file's id. -/
def Host.insert_file (h : Host) (file : File) : RustOutcome Host :=
  if h.has_available_space then
    .ok { h with files := alistInsert h.files file.id file }
  else
    .panicked "There is no available space in the Host for a file."

/-- `Host::insert_pending_file` (src/host/mod.rs lines 79-87): refuse with
`NoRoomForFile` (handing the file back) when there is no room. -/
def Host.insert_pending_file (h : Host) (file : File) :
    Except HostError Host :=
  if h.has_available_space then
    .ok { h with pending_files := alistInsert h.pending_files file.id file }
  else
    .error (.NoRoomForFile file)

/-- `Host::insert_hardware_register` (src/host/mod.rs lines 95-103). -/
def Host.insert_hardware_register (h : Host) (register : HardwareRegister) :
    RustOutcome Host :=
  if h.has_available_space then
    .ok { h with
      hardware_registers :=
        alistInsert h.hardware_registers register.id register }
  else
    .panicked
      "There is no available space in the Host for a hardware register."

/-- `Host::insert_system_exa` (src/host/mod.rs lines 110-117). -/
def Host.insert_system_exa (h : Host) (exa : Exa) : RustOutcome Host :=
  if h.has_available_space then
    .ok { h with system_exas := alistInsert h.system_exas exa.id exa }
  else
    .panicked "There is no available space in the Host for a system exa."

/-- `Host::insert_exa_id` (src/host/mod.rs lines 124-131). -/
def Host.insert_exa_id (h : Host) (exa_id : String) : RustOutcome Host :=
  if h.has_available_space then
    .ok { h with occupying_exa_ids := setInsert h.occupying_exa_ids exa_id }
  else
    .panicked "There is no available space in the Host for an exa."

/-- `Host::remove_file` (src/host/mod.rs lines 138-142):
`self.files.remove(file_id).filter(|file| !self.pending_files.contains_key(&file.id))`.
The removal from `files` happens unconditionally; the removed file is then
dropped (not returned) when a pending file shares its id. -/
def Host.remove_file (h : Host) (file_id : String) : Option File × Host :=
  let removed := alistRemove h.files file_id
  (removed.1.filter (fun file => ¬ alistContains h.pending_files file.id),
    { h with files := removed.2 })

/-- `Host::has_file`. -/
def Host.has_file (h : Host) (file_id : String) : Bool :=
  alistContains h.files file_id || alistContains h.pending_files file_id

/-- `Host::has_link`. -/
def Host.has_link (h : Host) (gate_id : String) : Bool :=
  alistContains h.links gate_id

/-- `Host::uptake_pending_files` (src/host/mod.rs lines 182-184). -/
def Host.uptake_pending_files (h : Host) : Host :=
  { h with
    files := h.pending_files.foldl (fun fs p => alistInsert fs p.1 p.2) h.files
    pending_files := [] }

/-- The arena of reference-counted hosts and links; `Weak::upgrade`
becomes a lookup, returning `none` for a dangling reference. -/
structure World where
  hosts : List (String × Host)
  links : List (String × Link)
deriving Repr, DecidableEq

/-- `Host::link` (src/host/mod.rs lines 205-228): gate unknown →
`LinkDoesNotExist`; link occupied or destination host out of space →
`Ok(None)` with nothing mutated; otherwise mark the link occupied and
return the destination host's (weak) id.  The returned `World` carries the
link mutation. -/
def Host.link (h : Host) (w : World) (gate_id : String) :
    Except HostError (Option String × World) :=
  if ¬ h.has_link gate_id then
    .error (.LinkDoesNotExist gate_id)
  else
    let available_link : Option (String × Link) :=
      match alistLookup h.links gate_id with
      | none => none
      | some link_id =>
        match alistLookup w.links link_id with
        | none => none
        | some link => if link.occupied then none else some (link_id, link)
    let destination_host : Option String :=
      match available_link with
      | none => none
      | some (_, link) =>
        match link.destination gate_id with
        | none => none
        | some host_id =>
          match alistLookup w.hosts host_id with
          | none => none
          | some host =>
            if host.has_available_space then some host_id else none
    match destination_host, available_link with
    | some host_id, some (link_id, link) =>
      .ok (some host_id,
        { w with
          links := alistInsert w.links link_id { link with occupied := true } })
    | _, _ => .ok (none, w)

/- ===== src/file/id_generator.rs ===== -/

/-- One fuel-bounded round of the
`while ids_to_avoid.contains(&next_id) { next_id += 1 }` loop of
`IdGenerator::new` / `IdGenerator::next`.  Structural recursion on the
fuel keeps the function kernel-computable. -/
def skipAvoidFuel : Nat → List Nat → Nat → Nat
  | 0, _, n => n
  | fuel + 1, avoid, n =>
    if n ∈ avoid then skipAvoidFuel fuel avoid (n + 1) else n

/-- The avoid-skipping loop itself: first candidate at or above `n` not
in the avoid list.  Fuel `avoid.length` always suffices because every
continuing step consumes a distinct avoided value ≥ `n`
(`skipAvoidFuel_spec` proves the loop has fully terminated). -/
def skipAvoid (avoid : List Nat) (n : Nat) : Nat :=
  skipAvoidFuel avoid.length avoid n

/-- `IdGenerator` (src/file/id_generator.rs lines 7-10); the
`HashSet<usize>` avoid-set is a list observed only through membership. -/
structure IdGenerator where
  next_id : Nat
  ids_to_avoid : List Nat
deriving Repr, DecidableEq

/-- `IdGenerator::new` (src/file/id_generator.rs lines 15-27): start at
400 and skip past avoided ids. -/
def IdGenerator.new (ids_to_avoid_list : List Nat) : IdGenerator :=
  { next_id := skipAvoid ids_to_avoid_list 400
    ids_to_avoid := ids_to_avoid_list }

/-- The state advance of a successful `IdGenerator::next` call:
`next_id += 1` followed by the avoid-skipping loop. -/
def IdGenerator.advance (g : IdGenerator) : IdGenerator :=
  { g with next_id := skipAvoid g.ids_to_avoid (g.next_id + 1) }

/-- `IdGenerator::next` (src/file/id_generator.rs lines 42-57): `assert!`
the candidate is at most 9999 (panic beyond), emit it as a decimal string,
then advance past avoided ids.  The iterator's `Option` wrapper is always
`Some`, so the outcome carries the emitted string and the next state. -/
def IdGenerator.next (g : IdGenerator) : RustOutcome (String × IdGenerator) :=
  if 9999 < g.next_id then
    .panicked "IdGenerator exceeded the maximum amount of ids (9999)!"
  else
    .ok (toString g.next_id, g.advance)

/- ===== Spec-side auxiliary definitions used by the theorems ===== -/

/-- The occupancy sum of spec property P1:
`|files| + |pending_files| + |hardware_registers| + |system_exas| +
|occupying_exa_ids|`. -/
def Host.occupancyCount (h : Host) : Nat :=
  h.files.length + h.pending_files.length + h.hardware_registers.length
    + h.system_exas.length + h.occupying_exa_ids.length

/-- Line `ℓ` of the program source is a (non-skipped) `MARK label`
line. -/
def isMarkLineOf (lines : List String) (ℓ : Nat) (label : String) : Prop :=
  ∃ hℓ : ℓ < lines.length,
    (startsWithChar (lines.get ⟨ℓ, hℓ⟩) '#'
      || (lines.get ⟨ℓ, hℓ⟩).isEmpty) = false ∧
    Instruction.from_str (lines.get ⟨ℓ, hℓ⟩) = .ok (.Mark (.LabelId label))

/-- The candidate id held by the generator after `k` successful `next`
calls starting from `IdGenerator::new(avoid)`. -/
def IdGenerator.nthCandidate (avoid : List Nat) (k : Nat) : Nat :=
  (IdGenerator.advance^[k] (IdGenerator.new avoid)).next_id

/-- A concrete empty program, used by the witness states. -/
def sampleProgram : Program :=
  { file_path := "", raw_lines := [], instructions := [], marks := [],
    stack_index := 0 }

/-- A concrete freshly-constructed agent (the fields `Exa::new` sets up),
used by the witness states. -/
def sampleExa : Exa :=
  { id := "XA", x_register := { id := "X", value := some (.Number 0) },
    t_register := { id := "T", value := some (.Number 0) },
    f_register := BasicRegister.new "F", host := "host_1",
    program := sampleProgram, file := none, file_generator := "gen",
    next_exa_id := 0, communication_mode := .Global, state := .Running }

/-- A concrete host holding file "200" both current and pending, used by
the C10 witness. -/
def sampleShadowHost : Host :=
  { Host.new "host_1" 9 with
    files := [("200", File.new "200")],
    pending_files := [("200", File.new "200")] }

/-- The concrete program of the C8 witness: the label table of
`["LINK 800", "", "MARK THIS_LABEL", "# comment", "GRAB 200",
"COPY F X", "HALT"]` maps THIS_LABEL to instruction index 1. -/
def sampleMarkedLines : List String :=
  ["LINK 800", "", "MARK THIS_LABEL", "# comment", "GRAB 200",
    "COPY F X", "HALT"]

/-- The program `Program::new` builds from `sampleMarkedLines`. -/
def sampleMarkedProgram : Program :=
  { file_path := ""
    raw_lines := sampleMarkedLines
    instructions :=
      [(0, .Link (.Number 800)), (4, .Grab (.Number 200)),
        (5, .Copy (.RegisterId "F") (.RegisterId "X")), (6, .Halt)]
    marks := [("THIS_LABEL", 1)]
    stack_index := 0 }

/-- A concrete link "host_1" gate "800" ↔ "host_2" gate "-1"
(`Link::new("800", &host_2, "-1", &host_1)` in the source tests), used by
the C3 witness. -/
def sampleLink : Link :=
  { lhs_id := "800", lhs_host := "host_2", rhs_id := "-1",
    rhs_host := "host_1", occupied := false }

/-- A concrete two-host world joined by `sampleLink`, used by the C3
witness. -/
def sampleWorld : World :=
  { hosts :=
      [("host_1", { Host.new "host_1" 9 with links := [("800", "L1")] }),
        ("host_2", { Host.new "host_2" 9 with links := [("-1", "L1")] })]
    links := [("L1", sampleLink)] }

/- ===== Helper lemmas ===== -/

lemma alistInsert_length_le {α : Type} (l : List (String × α)) (k : String)
    (v : α) : (alistInsert l k v).length ≤ l.length + 1 := by
  induction l with
  | nil => simp [alistInsert]
  | cons p rest ih =>
    obtain ⟨k0, v0⟩ := p
    by_cases hk : k0 = k
    · simp only [alistInsert, if_pos hk, List.length_cons]
      omega
    · simp only [alistInsert, if_neg hk, List.length_cons]
      omega

lemma setInsert_length_le (l : List String) (k : String) :
    (setInsert l k).length ≤ l.length + 1 := by
  by_cases hk : k ∈ l <;> simp [setInsert, hk]

lemma alistLookup_insert {α : Type} (l : List (String × α)) (k k1 : String)
    (v : α) :
    alistLookup (alistInsert l k v) k1 =
      if k = k1 then some v else alistLookup l k1 := by
  induction l with
  | nil => simp [alistInsert, alistLookup]
  | cons p rest ih =>
    obtain ⟨k0, v0⟩ := p
    by_cases hk : k0 = k
    · subst hk
      by_cases hk1 : k0 = k1 <;> simp [alistInsert, alistLookup, hk1]
    · by_cases hk1 : k0 = k1
      · subst hk1
        have : ¬ k = k0 := fun hc => hk hc.symm
        simp [alistInsert, alistLookup, hk, this]
      · simp [alistInsert, alistLookup, hk, hk1, ih]

lemma alistRemove_fst {α : Type} (l : List (String × α)) (k : String) :
    (alistRemove l k).1 = alistLookup l k := by
  induction l with
  | nil => simp [alistRemove, alistLookup]
  | cons p rest ih =>
    obtain ⟨k0, v0⟩ := p
    by_cases hk : k0 = k <;> simp [alistRemove, alistLookup, hk, ih]

lemma alistRemove_not_contains {α : Type} (l : List (String × α))
    (k : String) (hnd : (l.map Prod.fst).Nodup) :
    alistContains (alistRemove l k).2 k = false := by
  induction l with
  | nil => simp [alistRemove, alistContains, alistLookup]
  | cons p rest ih =>
    obtain ⟨k0, v0⟩ := p
    simp only [List.map_cons, List.nodup_cons] at hnd
    by_cases hk : k0 = k
    · subst hk
      simp only [alistRemove, if_pos rfl]
      have : ∀ q ∈ rest, q.1 ≠ k0 := by
        intro q hq hc
        exact hnd.1 (hc ▸ List.mem_map_of_mem Prod.fst hq)
      clear ih hnd
      induction rest with
      | nil => simp [alistContains, alistLookup]
      | cons q rest2 ih2 =>
        have hq := this q (by simp)
        simp only [alistContains, alistLookup, if_neg hq]
        exact ih2 (fun r hr => this r (by simp [hr]))
    · simpa [alistRemove, hk, alistContains, alistLookup] using ih hnd.2

lemma alistLookup_mem {α : Type} (l : List (String × α)) (k : String)
    (v : α) (h : alistLookup l k = some v) : (k, v) ∈ l := by
  induction l with
  | nil => cases h
  | cons p rest ih =>
    obtain ⟨k0, v0⟩ := p
    by_cases hk : k0 = k
    · subst hk
      simp [alistLookup] at h
      subst h
      exact List.mem_cons_self _ _
    · simp only [alistLookup, if_neg hk] at h
      exact List.mem_cons_of_mem _ (ih h)

lemma countP_ge_succ_lt_of_mem (l : List Nat) (n : Nat) (h : n ∈ l) :
    l.countP (fun m => n + 1 ≤ m) < l.countP (fun m => n ≤ m) := by
  induction l with
  | nil => cases h
  | cons a t ih =>
    rcases List.mem_cons.mp h with rfl | hat
    · have hle : t.countP (fun m => n + 1 ≤ m) ≤ t.countP (fun m => n ≤ m) := by
        refine List.countP_mono_left ?_
        intro x _ hx
        simpa using Nat.le_of_succ_le (by simpa using hx)
      simp [List.countP_cons]
      omega
    · have := ih hat
      by_cases hna : n + 1 ≤ a
      · have hna2 : n ≤ a := Nat.le_of_succ_le hna
        simp [List.countP_cons, hna, hna2]
        omega
      · by_cases hna2 : n ≤ a
        · simp [List.countP_cons, hna, hna2]
          omega
        · simp [List.countP_cons, hna, hna2]
          omega

lemma skipAvoidFuel_spec (fuel : Nat) :
    ∀ (avoid : List Nat) (n : Nat),
      avoid.countP (fun m => n ≤ m) ≤ fuel →
      n ≤ skipAvoidFuel fuel avoid n ∧ skipAvoidFuel fuel avoid n ∉ avoid ∧
        ∀ m, n ≤ m → m < skipAvoidFuel fuel avoid n → m ∈ avoid := by
  induction fuel with
  | zero =>
    intro avoid n hc
    have hnot : n ∉ avoid := by
      intro hmem
      have hpos : 0 < avoid.countP (fun m => n ≤ m) :=
        List.countP_pos_iff.mpr ⟨n, hmem, by simp⟩
      omega
    simp only [skipAvoidFuel]
    exact ⟨Nat.le_refl n, hnot,
      fun m hm1 hm2 => absurd (Nat.lt_of_le_of_lt hm1 hm2) (Nat.lt_irrefl n)⟩
  | succ fuel ih =>
    intro avoid n hc
    by_cases hmem : n ∈ avoid
    · have hlt := countP_ge_succ_lt_of_mem avoid n hmem
      have hrec := ih avoid (n + 1) (by omega)
      simp only [skipAvoidFuel, if_pos hmem]
      refine ⟨Nat.le_trans (Nat.le_succ n) hrec.1, hrec.2.1, ?_⟩
      intro m hm1 hm2
      rcases Nat.eq_or_lt_of_le hm1 with rfl | hlt2
      · exact hmem
      · exact hrec.2.2 m hlt2 hm2
    · simp only [skipAvoidFuel, if_neg hmem]
      exact ⟨Nat.le_refl n, hmem,
        fun m hm1 hm2 => absurd (Nat.lt_of_le_of_lt hm1 hm2) (Nat.lt_irrefl n)⟩

lemma skipAvoid_spec (avoid : List Nat) (n : Nat) :
    n ≤ skipAvoid avoid n ∧ skipAvoid avoid n ∉ avoid ∧
      ∀ m, n ≤ m → m < skipAvoid avoid n → m ∈ avoid :=
  skipAvoidFuel_spec avoid.length avoid n (List.countP_le_length _)


/-- C1.  The claim states that `Exa::execute_current_instruction`
terminates normally with one of the defined step outcomes and never
panics.  The source body (src/exa/mod.rs lines 177-181) is exactly
`unimplemented!()`, so every call panics with "not implemented" and no
call returns an outcome: the code contradicts the claim (and its own doc
comment and unit tests, which expect concrete `Ok`/`Err` results). -/
theorem C1_execute_current_instruction_always_panics (e : Exa) :
    e.execute_current_instruction = .panicked "not implemented" ∧
    ∀ result, e.execute_current_instruction ≠ .ok result := by
  refine ⟨rfl, ?_⟩
  intro result hc
  simp [Exa.execute_current_instruction] at hc

/-- C4.  For every basic and every hardware register and every number `n`
outside `[-9999, 9999]`, `write` returns the matching range error
(`NumberValueTooSmall` below, `NumberValueTooLarge` above) and the
register — its stored contents included — is exactly what it was before
the call. -/
theorem C4_register_write_out_of_range (r : BasicRegister)
    (hw : HardwareRegister) (n : Int) (hn : n < -9999 ∨ 9999 < n) :
    ((r.write (.Number n)).2 = r ∧ (hw.write (.Number n)).2 = hw) ∧
    (n < -9999 →
      (r.write (.Number n)).1 = .error (.NumberValueTooSmall (.Number n)) ∧
      (hw.write (.Number n)).1 = .error (.NumberValueTooSmall (.Number n))) ∧
    (9999 < n →
      (r.write (.Number n)).1 = .error (.NumberValueTooLarge (.Number n)) ∧
      (hw.write (.Number n)).1 = .error (.NumberValueTooLarge (.Number n))) := by
  rcases hn with hn | hn
  · have hn2 : ¬ (9999 : Int) < n := by omega
    simp [BasicRegister.write, HardwareRegister.write, hn, hn2]
  · have hn2 : ¬ n < (-9999 : Int) := by omega
    simp [BasicRegister.write, HardwareRegister.write, hn, hn2]

/-- Witness for C4 at `n = 10000` on fresh registers. -/
theorem C4_register_write_out_of_range_witness :
    ((BasicRegister.new "X").write (.Number 10000)).2 = BasicRegister.new "X" ∧
    ((BasicRegister.new "X").write (.Number 10000)).1 =
      .error (.NumberValueTooLarge (.Number 10000)) ∧
    (({ id := "#NERV", values := [], mode := .WriteOnly } :
        HardwareRegister).write (.Number 10000)).1 =
      .error (.NumberValueTooLarge (.Number 10000)) := by
  have h := C4_register_write_out_of_range (BasicRegister.new "X")
    ({ id := "#NERV", values := [], mode := .WriteOnly }) 10000
    (Or.inr (by decide))
  exact ⟨h.1.1, (h.2.2 (by decide)).1, (h.2.2 (by decide)).2⟩

/-- C5, counterexample.  The claim states that from cursor position 0,
`SEEK -k` followed by `SEEK +k` leaves the cursor at 0.  On a one-entry
file with the cursor at 0 and `k = 1`, `adjust_index (-1)` saturates to 0
and `adjust_index 1` then moves to 1, not 0. -/
theorem C5_seek_lower_boundary_counterexample :
    ¬ (((({ id := "400", contents := [Value.Number 1], index := 0 } :
        File).adjust_index (-1)).adjust_index 1).index = 0) := by
  decide

/-- C5, amended.  Saturation at a boundary does not accumulate a debt,
but the restoring order is the opposite of the claimed one: from position
0, `SEEK +k` then `SEEK -k` returns the cursor to 0 (not 2k); symmetric
at EOF, `SEEK -k` then `SEEK +k` returns the cursor to EOF.  (From
position 0, `SEEK -k` is itself a no-op, so `SEEK -k` then `SEEK +k`
yields `min k len`.) -/
theorem C5_seek_saturation_amended (f : File) (k : Nat) :
    (f.index = 0 →
      ((f.adjust_index k).adjust_index (-(k : Int))).index = 0 ∧
      ((f.adjust_index (-(k : Int))).adjust_index k).index = min k f.len) ∧
    (f.index = f.len →
      ((f.adjust_index (-(k : Int))).adjust_index k).index = f.len) := by
  constructor
  · intro h
    constructor
    · simp only [File.adjust_index, File.len, satAddSigned, h]
      omega
    · simp only [File.adjust_index, File.len, satAddSigned, h]
      omega
  · intro h
    simp only [File.adjust_index, File.len, satAddSigned, h]
    omega

/-- Witness for C5 on one-entry files with `k = 1`, at position 0 and at
EOF. -/
theorem C5_seek_saturation_amended_witness :
    (((({ id := "400", contents := [Value.Number 1], index := 0 } :
        File).adjust_index 1).adjust_index (-1)).index = 0) ∧
    (((({ id := "401", contents := [Value.Number 1], index := 1 } :
        File).adjust_index (-1)).adjust_index 1).index =
      ({ id := "401", contents := [Value.Number 1], index := 1 } :
        File).len) := by
  constructor
  · exact ((C5_seek_saturation_amended
      ({ id := "400", contents := [Value.Number 1], index := 0 } : File)
      1).1 rfl).1
  · exact (C5_seek_saturation_amended
      ({ id := "401", contents := [Value.Number 1], index := 1 } : File)
      1).2 (by decide)

/-- C6, counterexample.  The claim states that ordering a `Number`
against a `Keyword` is an error producing no ordering result.  The
source derives a total `Ord`/`PartialOrd` (src/value.rs line 15), so
`partial_cmp` on `Number(1)` vs `Keyword("kw")` produces
`Some(Ordering::Less)`, not `None`. -/
theorem C6_mixed_ordering_counterexample :
    Value.cmpOpt (.Number 1) (.Keyword "kw") = some Ordering.lt ∧
    Value.cmpOpt (.Number 1) (.Keyword "kw") ≠ none := by
  decide

/-- C6, amended.  Mixed-variant equality indeed compares unequal, but
ordering a `Number` against a `Keyword` is not an error: the derived
total order compares by variant declaration order, so every `Number`
orders strictly below every `Keyword` and `partial_cmp` always produces a
result. -/
theorem C6_value_mixed_comparison_amended (n : Int) (s : String) :
    Value.beq (.Number n) (.Keyword s) = false ∧
    Value.beq (.Keyword s) (.Number n) = false ∧
    Value.cmp (.Number n) (.Keyword s) = Ordering.lt ∧
    Value.cmpOpt (.Number n) (.Keyword s) = some Ordering.lt := by
  refine ⟨rfl, rfl, ?_, ?_⟩ <;>
    simp [Value.cmp, Value.cmpOpt, Value.variantRank, compare, compareOfLessAndEq]

/-- C7.  On a ReadOnly hardware register, `write` leaves the register
(queue included) unchanged for every argument, and returns exactly the
result a `BasicRegister::write` of the same value returns: success for an
in-range number or a keyword (the documented no-op), and the identical
validation error for an out-of-range number or a label/register id. -/
theorem C7_readonly_hardware_write (hw : HardwareRegister)
    (r : BasicRegister) (v : Value) (hm : hw.mode = .ReadOnly) :
    (hw.write v).2 = hw ∧
    (hw.write v).1 = (r.write v).1 ∧
    (∀ n, v = .Number n → -9999 ≤ n → n ≤ 9999 → (hw.write v).1 = .ok ()) ∧
    (∀ s, v = .Keyword s → (hw.write v).1 = .ok ()) := by
  have hmode : ¬ hw.mode = .WriteOnly := by
    rw [hm]
    intro hc
    cases hc
  cases v with
  | Number n =>
    by_cases h1 : n < -9999
    · simp [HardwareRegister.write, BasicRegister.write, hmode, h1]
    · by_cases h2 : (9999 : Int) < n
      · simp [HardwareRegister.write, BasicRegister.write, hmode, h1, h2]
      · simp [HardwareRegister.write, BasicRegister.write, hmode, h1, h2]
  | Keyword s => simp [HardwareRegister.write, BasicRegister.write, hmode]
  | RegisterId s => simp [HardwareRegister.write, BasicRegister.write]
  | LabelId s => simp [HardwareRegister.write, BasicRegister.write]

/-- Witness for C7: a ReadOnly register with contents `[1, 2, 3]`
accepts a keyword write as a no-op and rejects `Number(10000)` exactly
like a basic register. -/
theorem C7_readonly_hardware_write_witness :
    ((({ id := "#NERV", values := [Value.Number 1, Value.Number 2, Value.Number 3], mode := .ReadOnly } : HardwareRegister).write (.Keyword "kw")).2 =
      ({ id := "#NERV", values := [Value.Number 1, Value.Number 2, Value.Number 3], mode := .ReadOnly } : HardwareRegister)) ∧
    ((({ id := "#NERV", values := [Value.Number 1, Value.Number 2, Value.Number 3], mode := .ReadOnly } : HardwareRegister).write (.Keyword "kw")).1 = .ok ()) ∧
    ((({ id := "#NERV", values := [Value.Number 1, Value.Number 2, Value.Number 3], mode := .ReadOnly } : HardwareRegister).write (.Number 10000)).1 =
      ((BasicRegister.new "X").write (.Number 10000)).1) := by
  refine ⟨?_, ?_, ?_⟩
  · exact (C7_readonly_hardware_write _ (BasicRegister.new "X")
      (.Keyword "kw") rfl).1
  · exact (C7_readonly_hardware_write _ (BasicRegister.new "X")
      (.Keyword "kw") rfl).2.2.2 "kw" rfl
  · exact (C7_readonly_hardware_write _ (BasicRegister.new "X")
      (.Number 10000) rfl).2.1

/-- C2.  Every insert operation on a `Host` preserves the occupancy
invariant: starting from a host satisfying P1
(`occupancyCount ≤ occupancy_limit`), each of `insert_file`,
`insert_pending_file`, `insert_hardware_register`, `insert_system_exa`
and `insert_exa_id` either refuses (`insert_pending_file` returns
`NoRoomForFile`, the others panic on the `assert!`) or produces a host
that still satisfies the bound. -/
theorem C2_host_insert_preserves_occupancy (h : Host) (f1 f2 : File)
    (hw : HardwareRegister) (ex : Exa) (exa_id : String)
    (hpre : h.occupancyCount ≤ h.occupancy_limit) :
    (∀ h2, h.insert_file f1 = .ok h2 →
      h2.occupancyCount ≤ h2.occupancy_limit) ∧
    (∀ h2, h.insert_pending_file f2 = .ok h2 →
      h2.occupancyCount ≤ h2.occupancy_limit) ∧
    (∀ h2, h.insert_hardware_register hw = .ok h2 →
      h2.occupancyCount ≤ h2.occupancy_limit) ∧
    (∀ h2, h.insert_system_exa ex = .ok h2 →
      h2.occupancyCount ≤ h2.occupancy_limit) ∧
    (∀ h2, h.insert_exa_id exa_id = .ok h2 →
      h2.occupancyCount ≤ h2.occupancy_limit) ∧
    (h.has_available_space = false →
      (∃ msg, h.insert_file f1 = .panicked msg) ∧
      h.insert_pending_file f2 = .error (.NoRoomForFile f2) ∧
      (∃ msg, h.insert_hardware_register hw = .panicked msg) ∧
      (∃ msg, h.insert_system_exa ex = .panicked msg) ∧
      (∃ msg, h.insert_exa_id exa_id = .panicked msg)) := by
  cases hspace : h.has_available_space with
  | false =>
    simp [Host.insert_file, Host.insert_pending_file,
      Host.insert_hardware_register, Host.insert_system_exa,
      Host.insert_exa_id, hspace]
  | true =>
    have hroom : h.files.length + h.pending_files.length
        + h.hardware_registers.length + h.system_exas.length
        + h.occupying_exa_ids.length < h.occupancy_limit := by
      have hs2 := hspace
      simp only [Host.has_available_space, decide_eq_true_eq] at hs2
      omega
    refine ⟨?_, ?_, ?_, ?_, ?_, ?_⟩
    · intro h2 hok
      simp only [Host.insert_file, hspace, if_true, RustOutcome.ok.injEq] at hok
      subst hok
      have := alistInsert_length_le h.files f1.id f1
      simp only [Host.occupancyCount]
      omega
    · intro h2 hok
      simp only [Host.insert_pending_file, hspace, if_true] at hok
      cases hok
      have := alistInsert_length_le h.pending_files f2.id f2
      simp only [Host.occupancyCount]
      omega
    · intro h2 hok
      simp only [Host.insert_hardware_register, hspace, if_true,
        RustOutcome.ok.injEq] at hok
      subst hok
      have := alistInsert_length_le h.hardware_registers hw.id hw
      simp only [Host.occupancyCount]
      omega
    · intro h2 hok
      simp only [Host.insert_system_exa, hspace, if_true,
        RustOutcome.ok.injEq] at hok
      subst hok
      have := alistInsert_length_le h.system_exas ex.id ex
      simp only [Host.occupancyCount]
      omega
    · intro h2 hok
      simp only [Host.insert_exa_id, hspace, if_true,
        RustOutcome.ok.injEq] at hok
      subst hok
      have := setInsert_length_le h.occupying_exa_ids exa_id
      simp only [Host.occupancyCount]
      omega
    · intro hc
      simp at hc

/-- Witness for C2: a host of capacity 1 accepts a file while keeping the
bound, and a host of capacity 0 refuses a pending file. -/
theorem C2_host_insert_preserves_occupancy_witness :
    (∀ h2, (Host.new "host_1" 1).insert_file (File.new "200") = .ok h2 →
      h2.occupancyCount ≤ h2.occupancy_limit) ∧
    ((Host.new "host_1" 0).insert_pending_file (File.new "201") =
      .error (.NoRoomForFile (File.new "201"))) := by
  constructor
  · exact (C2_host_insert_preserves_occupancy (Host.new "host_1" 1)
      (File.new "200") (File.new "200")
      { id := "#NERV", values := [], mode := .WriteOnly }
      sampleExa "XA" (by decide)).1
  · exact ((C2_host_insert_preserves_occupancy (Host.new "host_1" 0)
      (File.new "201") (File.new "201")
      { id := "#NERV", values := [], mode := .WriteOnly }
      sampleExa "XA" (by decide)).2.2.2.2.2 (by decide)).2.1

/-- C10.  On a host whose key map is consistent (every `files` entry is
keyed by its file's own id, as `insert_file` guarantees) and whose keys
are unique (a `HashMap` property): if `pending_files` contains a file id,
`remove_file` with that id returns `None` — and when `files`
simultaneously contains that id, the entry is nevertheless removed from
`files`, the file being silently discarded rather than handed to the
caller. -/
theorem C10_remove_file_pending_shadow (h : Host) (file_id : String)
    (hpend : alistContains h.pending_files file_id = true)
    (hkeys : ∀ p ∈ h.files, p.2.id = p.1)
    (hnd : (h.files.map Prod.fst).Nodup) :
    (h.remove_file file_id).1 = none ∧
    alistContains (h.remove_file file_id).2.files file_id = false := by
  constructor
  · simp only [Host.remove_file, alistRemove_fst]
    cases hlook : alistLookup h.files file_id with
    | none => rfl
    | some f =>
      have hfid : f.id = file_id :=
        hkeys (file_id, f) (alistLookup_mem h.files file_id f hlook)
      simp [Option.filter, hfid, hpend]
  · simp only [Host.remove_file]
    exact alistRemove_not_contains h.files file_id hnd

/-- Witness for C10 on `sampleShadowHost` (file "200" both current and
pending): `remove_file "200"` hands back nothing and drops the `files`
entry. -/
theorem C10_remove_file_pending_shadow_witness :
    (sampleShadowHost.remove_file "200").1 = none ∧
    alistContains (sampleShadowHost.remove_file "200").2.files "200" =
      false := by
  exact C10_remove_file_pending_shadow sampleShadowHost "200"
    (by decide) (by decide) (by decide)

/-- C3.  `Host::link` as the LINK traversal gate: an unknown gate id
yields `LinkDoesNotExist`; a link that exists (the gate resolves to a
live link in the arena) but is occupied — or whose destination host has
no available space — yields `Ok(None)` with the world, the link's
occupied flag included, untouched; otherwise it yields `Ok(Some dest)`
and sets that link's occupied flag to true. -/
theorem C3_host_link_gate (h : Host) (w : World) (gate_id : String) :
    (h.has_link gate_id = false →
      h.link w gate_id = .error (.LinkDoesNotExist gate_id)) ∧
    (∀ link_id link, alistLookup h.links gate_id = some link_id →
      alistLookup w.links link_id = some link →
      (link.occupied = true → h.link w gate_id = .ok (none, w)) ∧
      (∀ host_id host, link.occupied = false →
        link.destination gate_id = some host_id →
        alistLookup w.hosts host_id = some host →
        (host.has_available_space = false →
          h.link w gate_id = .ok (none, w)) ∧
        (host.has_available_space = true →
          h.link w gate_id = .ok (some host_id,
            { w with
              links := alistInsert w.links link_id
                { link with occupied := true } })))) := by
  constructor
  · intro hmiss
    simp [Host.link, hmiss]
  · intro link_id link hgate hlink
    have hhas : h.has_link gate_id = true := by
      simp [Host.has_link, alistContains, hgate]
    constructor
    · intro hocc
      simp [Host.link, hhas, hgate, hlink, hocc]
    · intro host_id host hocc hdest hhost
      constructor
      · intro hspace
        simp [Host.link, hhas, hgate, hlink, hocc, hdest, hhost, hspace]
      · intro hspace
        simp [Host.link, hhas, hgate, hlink, hocc, hdest, hhost, hspace]

/-- Witness for C3 on the concrete two-host world: traversing gate "800"
from host_1 reaches host_2 and occupies the link; an unknown gate on a
fresh host errors; the occupied link yields `Ok(None)`. -/
theorem C3_host_link_gate_witness :
    ((Host.new "host" 9).link sampleWorld "800" =
      .error (.LinkDoesNotExist "800")) ∧
    (({ Host.new "host_1" 9 with links := [("800", "L1")] } : Host).link
      sampleWorld "800" =
      .ok (some "host_2",
        { sampleWorld with
          links := alistInsert sampleWorld.links "L1"
            { sampleLink with occupied := true } })) ∧
    (({ Host.new "host_1" 9 with links := [("800", "L1")] } : Host).link
      { sampleWorld with
        links := [("L1", { sampleLink with occupied := true })] } "800" =
      .ok (none,
        { sampleWorld with
          links := [("L1", { sampleLink with occupied := true })] })) := by
  refine ⟨?_, ?_, ?_⟩
  · exact (C3_host_link_gate (Host.new "host" 9) sampleWorld "800").1
      (by decide)
  · exact ((((C3_host_link_gate
      ({ Host.new "host_1" 9 with links := [("800", "L1")] } : Host)
      sampleWorld "800").2 "L1" sampleLink (by decide) (by decide)).2
      "host_2" ({ Host.new "host_2" 9 with links := [("-1", "L1")] } : Host)
      (by decide) (by decide) (by decide)).2 (by decide))
  · exact ((C3_host_link_gate
      ({ Host.new "host_1" 9 with links := [("800", "L1")] } : Host)
      { sampleWorld with
        links := [("L1", { sampleLink with occupied := true })] } "800").2
      "L1" { sampleLink with occupied := true } (by decide) (by decide)).1
      (by decide)

lemma iterate_advance_ids_to_avoid (avoid : List Nat) (k : Nat) :
    (IdGenerator.advance^[k] (IdGenerator.new avoid)).ids_to_avoid =
      avoid := by
  induction k with
  | zero => rfl
  | succ k ih =>
    rw [Function.iterate_succ_apply']
    simpa [IdGenerator.advance] using ih

lemma nthCandidate_succ (avoid : List Nat) (k : Nat) :
    IdGenerator.nthCandidate avoid (k + 1) =
      skipAvoid avoid (IdGenerator.nthCandidate avoid k + 1) := by
  unfold IdGenerator.nthCandidate
  rw [Function.iterate_succ_apply']
  simp [IdGenerator.advance, iterate_advance_ids_to_avoid]

lemma nthCandidate_lt_succ (avoid : List Nat) (k : Nat) :
    IdGenerator.nthCandidate avoid k <
      IdGenerator.nthCandidate avoid (k + 1) := by
  rw [nthCandidate_succ]
  exact Nat.lt_of_lt_of_le (Nat.lt_succ_self _)
    (skipAvoid_spec avoid (IdGenerator.nthCandidate avoid k + 1)).1

/-- C9.  The file-id generator: the `k`-th candidate id (the value the
`k`-th `next` call emits when it does not panic) is never in the
avoid-set; candidates are strictly increasing in `k` (hence every emitted
id is unique across the generator's lifetime); the first candidate is the
smallest integer ≥ 400 outside the avoid-set; a `next` call whose
candidate is at most 9999 returns the candidate as a decimal string, and
a call whose candidate exceeds 9999 panics rather than returning. -/
theorem C9_id_generator_emission (avoid : List Nat) (k j : Nat) :
    (400 ≤ IdGenerator.nthCandidate avoid 0 ∧
      IdGenerator.nthCandidate avoid 0 ∉ avoid ∧
      ∀ m, 400 ≤ m → m ∉ avoid → IdGenerator.nthCandidate avoid 0 ≤ m) ∧
    (j < k →
      IdGenerator.nthCandidate avoid j < IdGenerator.nthCandidate avoid k) ∧
    IdGenerator.nthCandidate avoid k ∉ avoid ∧
    (IdGenerator.nthCandidate avoid k ≤ 9999 →
      (IdGenerator.advance^[k] (IdGenerator.new avoid)).next =
        .ok (toString (IdGenerator.nthCandidate avoid k),
          IdGenerator.advance^[k + 1] (IdGenerator.new avoid))) ∧
    (9999 < IdGenerator.nthCandidate avoid k →
      (IdGenerator.advance^[k] (IdGenerator.new avoid)).next =
        .panicked "IdGenerator exceeded the maximum amount of ids (9999)!") := by
  have hspec0 := skipAvoid_spec avoid 400
  refine ⟨⟨hspec0.1, hspec0.2.1, ?_⟩, ?_, ?_, ?_, ?_⟩
  · intro m hm1 hm2
    by_contra hcon
    have hdef : IdGenerator.nthCandidate avoid 0 = skipAvoid avoid 400 := rfl
    rw [hdef] at hcon
    exact hm2 (hspec0.2.2 m hm1 (by omega))
  · intro hjk
    exact strictMono_nat_of_lt_succ (nthCandidate_lt_succ avoid) hjk
  · cases k with
    | zero => exact hspec0.2.1
    | succ k =>
      rw [nthCandidate_succ]
      exact (skipAvoid_spec avoid _).2.1
  · intro hle
    have hnotgt : ¬ 9999 <
        (IdGenerator.advance^[k] (IdGenerator.new avoid)).next_id := by
      simpa [IdGenerator.nthCandidate] using Nat.not_lt.mpr hle
    simp only [IdGenerator.next, if_neg hnotgt]
    rw [Function.iterate_succ_apply']
    rfl
  · intro hgt
    have hgt2 : 9999 <
        (IdGenerator.advance^[k] (IdGenerator.new avoid)).next_id := by
      simpa [IdGenerator.nthCandidate] using hgt
    simp only [IdGenerator.next, if_pos hgt2]

/-- Witness for C9 with avoid-set `[400, 402, 403]` (the source's unit
test): the first candidate is 401, candidates grow strictly, and the
second `next` call emits "404". -/
theorem C9_id_generator_emission_witness :
    (400 ≤ IdGenerator.nthCandidate [400, 402, 403] 0 ∧
      IdGenerator.nthCandidate [400, 402, 403] 0 ∉ [400, 402, 403]) ∧
    IdGenerator.nthCandidate [400, 402, 403] 0 <
      IdGenerator.nthCandidate [400, 402, 403] 1 ∧
    (IdGenerator.advance^[1] (IdGenerator.new [400, 402, 403])).next =
      .ok (toString (IdGenerator.nthCandidate [400, 402, 403] 1),
        IdGenerator.advance^[1 + 1] (IdGenerator.new [400, 402, 403])) := by
  have h := C9_id_generator_emission [400, 402, 403] 1 0
  exact ⟨⟨h.1.1, h.1.2.1⟩, h.2.1 (by decide), h.2.2.2.1 (by decide)⟩

lemma markLabelOf_eq_some {instr : Instruction} {label : String}
    (h : markLabelOf instr = some label) :
    instr = .Mark (.LabelId label) := by
  unfold markLabelOf at h
  split at h
  · rename_i l
    cases h
    rfl
  · cases h

lemma markLabelOf_eq_none {instr : Instruction}
    (h : markLabelOf instr = none) :
    ∀ label, instr ≠ .Mark (.LabelId label) := by
  intro label hc
  subst hc
  simp [markLabelOf] at h

lemma buildLoop_cons_skip (line : String) (rest : List String) (n : Nat)
    (st : BuildState)
    (h : (startsWithChar line '#' || line.isEmpty) = true) :
    buildLoop (line :: rest) n st = buildLoop rest (n + 1) st := by
  simp [buildLoop, h]

lemma buildLoop_cons_mark (line : String) (rest : List String) (n : Nat)
    (st : BuildState) (label : String)
    (h : (startsWithChar line '#' || line.isEmpty) = false)
    (hp : Instruction.from_str line = .ok (.Mark (.LabelId label))) :
    buildLoop (line :: rest) n st =
      buildLoop rest (n + 1)
        { marks := alistInsert st.marks label st.instructions.length
          instructions := st.instructions
          results := st.results ++ [(n, .ok (.Mark (.LabelId label)))] } := by
  simp [buildLoop, h, hp]

lemma buildLoop_cons_instr (line : String) (rest : List String) (n : Nat)
    (st : BuildState) (instr : Instruction)
    (h : (startsWithChar line '#' || line.isEmpty) = false)
    (hp : Instruction.from_str line = .ok instr)
    (hni : ∀ label, instr ≠ .Mark (.LabelId label)) :
    buildLoop (line :: rest) n st =
      buildLoop rest (n + 1)
        { marks := st.marks
          instructions := st.instructions ++ [(n, instr)]
          results := st.results ++ [(n, .ok instr)] } := by
  simp only [buildLoop, h, Bool.false_eq_true, if_false, hp]

lemma buildLoop_cons_err (line : String) (rest : List String) (n : Nat)
    (st : BuildState) (e : Instruction.ParseError)
    (h : (startsWithChar line '#' || line.isEmpty) = false)
    (hp : Instruction.from_str line = .error e) :
    buildLoop (line :: rest) n st =
      buildLoop rest (n + 1)
        { marks := st.marks
          instructions := st.instructions
          results := st.results ++ [(n, .error e)] } := by
  simp [buildLoop, h, hp]

lemma buildLoop_invariant (IsMark : Nat → String → Prop) :
    ∀ (rest : List String) (n : Nat) (st : BuildState),
      (∀ p ∈ st.instructions, p.1 < n) →
      (∀ label i, alistLookup st.marks label = some i →
        ∃ ℓ, ℓ < n ∧ IsMark ℓ label ∧ i ≤ st.instructions.length ∧
          ∀ j (hj : j < st.instructions.length),
            ((st.instructions.get ⟨j, hj⟩).1 < ℓ ↔ j < i)) →
      (∀ k (hk : k < rest.length) label,
        (startsWithChar (rest.get ⟨k, hk⟩) '#'
          || (rest.get ⟨k, hk⟩).isEmpty) = false →
        Instruction.from_str (rest.get ⟨k, hk⟩) =
          .ok (.Mark (.LabelId label)) →
        IsMark (n + k) label) →
      (∀ p ∈ (buildLoop rest n st).instructions, p.1 < n + rest.length) ∧
      (∀ label i,
        alistLookup (buildLoop rest n st).marks label = some i →
        ∃ ℓ, ℓ < n + rest.length ∧ IsMark ℓ label ∧
          i ≤ (buildLoop rest n st).instructions.length ∧
          ∀ j (hj : j < (buildLoop rest n st).instructions.length),
            (((buildLoop rest n st).instructions.get ⟨j, hj⟩).1 < ℓ ↔
              j < i)) := by
  intro rest
  induction rest with
  | nil =>
    intro n st h1 h2 h3
    have hz : n + ([] : List String).length = n := rfl
    rw [show buildLoop [] n st = st from rfl, hz]
    exact ⟨h1, h2⟩
  | cons line rest ih =>
    intro n st h1 h2 h3
    have hlen : n + (line :: rest).length = (n + 1) + rest.length := by
      simp only [List.length_cons]
      omega
    have hshift : ∀ k (hk : k < rest.length) label,
        (startsWithChar (rest.get ⟨k, hk⟩) '#'
          || (rest.get ⟨k, hk⟩).isEmpty) = false →
        Instruction.from_str (rest.get ⟨k, hk⟩) =
          .ok (.Mark (.LabelId label)) →
        IsMark ((n + 1) + k) label := by
      intro k hk label hsk hpk
      have hk2 : k + 1 < (line :: rest).length := by
        simp only [List.length_cons]
        omega
      have heq : n + (k + 1) = (n + 1) + k := by omega
      have hres := h3 (k + 1) hk2 label hsk hpk
      rwa [heq] at hres
    cases hline : (startsWithChar line '#' || line.isEmpty) with
    | true =>
      rw [buildLoop_cons_skip line rest n st hline, hlen]
      refine ih (n + 1) st ?_ ?_ hshift
      · intro p hp
        exact Nat.lt_succ_of_lt (h1 p hp)
      · intro label i hl
        obtain ⟨ℓ, hℓ, hm, hi, hiff⟩ := h2 label i hl
        exact ⟨ℓ, Nat.lt_succ_of_lt hℓ, hm, hi, hiff⟩
    | false =>
      cases hparse : Instruction.from_str line with
      | error e =>
        rw [buildLoop_cons_err line rest n st e hline hparse, hlen]
        refine ih (n + 1) _ ?_ ?_ hshift
        · intro p hp
          exact Nat.lt_succ_of_lt (h1 p hp)
        · intro label i hl
          obtain ⟨ℓ, hℓ, hm, hi, hiff⟩ := h2 label i hl
          exact ⟨ℓ, Nat.lt_succ_of_lt hℓ, hm, hi, hiff⟩
      | ok instr =>
        cases hmlab : markLabelOf instr with
        | some label0 =>
          have hinstr := markLabelOf_eq_some hmlab
          subst hinstr
          rw [buildLoop_cons_mark line rest n st label0 hline hparse, hlen]
          refine ih (n + 1) _ ?_ ?_ hshift
          · intro p hp
            exact Nat.lt_succ_of_lt (h1 p hp)
          · intro label i hl
            simp only at hl
            rw [alistLookup_insert] at hl
            by_cases hlab : label0 = label
            · subst hlab
              rw [if_pos rfl] at hl
              cases hl
              refine ⟨n, Nat.lt_succ_self n, ?_, Nat.le_refl _, ?_⟩
              · have h0 : (0 : Nat) < (line :: rest).length := by
                  simp only [List.length_cons]
                  omega
                have hres := h3 0 h0 label0 hline hparse
                simpa using hres
              · intro j hj
                constructor
                · intro _
                  exact hj
                · intro _
                  exact h1 _ (List.get_mem _ _ _)
            · rw [if_neg hlab] at hl
              obtain ⟨ℓ, hℓ, hm, hi, hiff⟩ := h2 label i hl
              exact ⟨ℓ, Nat.lt_succ_of_lt hℓ, hm, hi, hiff⟩
        | none =>
          have hni := markLabelOf_eq_none hmlab
          rw [buildLoop_cons_instr line rest n st instr hline hparse hni,
            hlen]
          refine ih (n + 1) _ ?_ ?_ hshift
          · intro p hp
            simp only [List.mem_append, List.mem_singleton] at hp
            rcases hp with hp | hp
            · exact Nat.lt_succ_of_lt (h1 p hp)
            · subst hp
              exact Nat.lt_succ_self n
          · intro label i hl
            simp only at hl
            obtain ⟨ℓ, hℓ, hm, hi, hiff⟩ := h2 label i hl
            refine ⟨ℓ, Nat.lt_succ_of_lt hℓ, hm, ?_, ?_⟩
            · simp only [List.length_append, List.length_singleton]
              omega
            · intro j hj
              simp only [List.length_append, List.length_singleton] at hj
              by_cases hjl : j < st.instructions.length
              · have hget : (st.instructions ++ [(n, instr)]).get
                    ⟨j, by simp only [List.length_append,
                      List.length_singleton]; omega⟩ =
                      st.instructions.get ⟨j, hjl⟩ := by
                  rw [List.get_append j hjl]
                rw [hget]
                exact hiff j hjl
              · have hje : j = st.instructions.length := by omega
                subst hje
                have hget : (st.instructions ++ [(n, instr)]).get
                    ⟨st.instructions.length, by
                      simp only [List.length_append,
                        List.length_singleton]; omega⟩ = (n, instr) :=
                  List.get_of_append rfl rfl
                rw [hget]
                simp only
                omega

/-- C8.  For every successfully constructed program, each label in the
label table maps to the index, within the Mark-free instruction list, at
which the instructions stemming from source lines after that `MARK` line
begin — i.e. the index of the first executable instruction at or after
the mark, with comments, empty lines and marks already skipped (for a
trailing mark this index is the list length): there is a `MARK label`
source line `ℓ` such that the instructions with index `< i` are exactly
those from lines before `ℓ`, and the rest come from lines after `ℓ`.
`jump_to` with that label sets the program cursor to exactly that
index. -/
theorem C8_marks_resolve_first_instruction (lines : List String)
    (p : Program) (label : String) (i : Nat)
    (hp : Program.new lines = .ok p)
    (hm : alistLookup p.marks label = some i) :
    (∃ ℓ, isMarkLineOf lines ℓ label ∧ i ≤ p.instructions.length ∧
      ∀ j (hj : j < p.instructions.length),
        ((p.instructions.get ⟨j, hj⟩).1 < ℓ ↔ j < i)) ∧
    p.jump_to (.LabelId label) = .ok { p with stack_index := i } := by
  have hjump : p.jump_to (.LabelId label) =
      .ok { p with stack_index := i } := by
    simp [Program.jump_to, hm]
  refine ⟨?_, hjump⟩
  unfold Program.new at hp
  simp only at hp
  split at hp
  · cases hp
    have hinv := buildLoop_invariant (isMarkLineOf lines) lines 0
      ⟨[], [], []⟩
      (by intro q hq; cases hq)
      (by intro label2 i2 hl; cases hl)
      (by
        intro k hk label2 hsk hpk
        have hzk : (0 : Nat) + k = k := Nat.zero_add k
        rw [hzk]
        exact ⟨hk, hsk, hpk⟩)
    obtain ⟨ℓ, _, hmark, hi, hiff⟩ := hinv.2 label i hm
    exact ⟨ℓ, hmark, hi, hiff⟩
  · cases hp

/-- Witness for C8 on `sampleMarkedLines`: THIS_LABEL resolves to
instruction index 1 (the `GRAB 200` after the mark), and `jump_to` sets
the cursor there. -/
theorem C8_marks_resolve_first_instruction_witness :
    (∃ ℓ, isMarkLineOf sampleMarkedLines ℓ "THIS_LABEL" ∧
      1 ≤ sampleMarkedProgram.instructions.length ∧
      ∀ j (hj : j < sampleMarkedProgram.instructions.length),
        ((sampleMarkedProgram.instructions.get ⟨j, hj⟩).1 < ℓ ↔ j < 1)) ∧
    sampleMarkedProgram.jump_to (.LabelId "THIS_LABEL") =
      .ok { sampleMarkedProgram with stack_index := 1 } := by
  exact C8_marks_resolve_first_instruction sampleMarkedLines
    sampleMarkedProgram "THIS_LABEL" 1 (by decide) (by decide)
